import Mathlib

/-!
# FileToHeaderConverter — verification of `Src/Main.cpp`

Shallow embedding of the converter CLI: the argument dispatcher in `main`,
`CompareStrings`, `ValidateArrayName`, `ProcessHex` and `ProcessString`.

Modelling conventions:
* C strings (`char*`, NUL-terminated) are `List Char` / `String`; a C string
  never contains an interior NUL, so the terminating `'\0'` is represented by
  the end of the list.  Where the code reads `arrayName[0]` of an empty string
  it sees `'\0'`, modelled by the `none` case of `List.head?`.
* Bytes read from the input file (`unsigned char`) are `Nat` values `< 256`.
* The file system is a finite association list from file names to byte
  contents.  Opening an `std::ofstream` truncates the file (content becomes
  empty); failure to open the output file is not modelled (the model's
  output open always succeeds), matching the successful-open paths the
  claims are about.  Opening the input succeeds iff the file exists.
* `std::endl` writes a single `'\n'` (text streams; no CRLF translation is
  modelled, as on POSIX).
-/

/-- One lowercase hexadecimal digit, as emitted by `std::hex` for values
`0..15` (`operator<<` on `int` with the default `std::nouppercase`). -/
def hexDigit (n : Nat) : Char :=
  if n < 10 then Char.ofNat (48 + n) else Char.ofNat (97 + (n - 10))

/-- The two characters `std::setw(2) << std::setfill(48) << std::hex` prints
for a byte value `b < 256`: zero-padded to exactly two digits. -/
def hexByteChars (b : Nat) : List Char :=
  [hexDigit (b / 16), hexDigit (b % 16)]

/-- The byte-emission loop of `ProcessHex` (Main.cpp lines 215–242): for each
byte, a comma unless it is the first element, a newline plus three-space
indent when `count % 8 == 0`, then a space and the `0xNN` literal.  `count`
starts at 0 and `isFirstElement` starts `true`. -/
def hexBodyAux : List Nat → Nat → Bool → List Char
  | [], _, _ => []
  | b :: rest, count, isFirstElement =>
    (if !isFirstElement then [','] else []) ++
    (if count % 8 == 0 then ['\n', ' ', ' ', ' '] else []) ++
    ([' ', '0', 'x'] ++ hexByteChars b) ++
    hexBodyAux rest (count + 1) false

/-- The array body `ProcessHex` writes between `...[] = \x7b` and `\n\x7d;`. -/
def hexBodyChars (bytes : List Nat) : List Char :=
  hexBodyAux bytes 0 true

/-- The complete text `ProcessHex` writes to the output file, as characters:
`#pragma once`, blank line, declaration header, the body, closing brace. -/
def ProcessHexOutputChars (name : String) (bytes : List Nat) : List Char :=
  "#pragma once\n\nstatic const unsigned char ".data ++ name.data ++
    "[] = \x7b".data ++ hexBodyChars bytes ++ "\n\x7d;".data

/-- Value of a hexadecimal digit character (`0`–`9`, `a`–`f`). -/
def hexVal (c : Char) : Nat :=
  if 48 ≤ c.toNat ∧ c.toNat ≤ 57 then c.toNat - 48
  else if 97 ≤ c.toNat ∧ c.toNat ≤ 102 then c.toNat - 87
  else 0

/-- Decoder for the emitted array body: scan the text, skip every character
that does not start a `0xNN` literal, and parse each `0xNN` literal back to
a byte value.  This is the round-trip reading direction of the spec
("strip non-hex tokens and parse each `0xNN`"). -/
def decodeHexLits : List Char → List Nat
  | '0' :: 'x' :: d1 :: d2 :: rest =>
    (hexVal d1 * 16 + hexVal d2) :: decodeHexLits rest
  | _ :: rest => decodeHexLits rest
  | [] => []

/-- Model of `CompareStrings` (Main.cpp lines 108–122): walk both strings while the
current characters are equal and neither is the terminating NUL, then return
the difference of the current character codes (the code of `'\0'` is 0). -/
def CompareStrings : List Char → List Char → Int
  | c1 :: r1, c2 :: r2 =>
    if c1 = c2 then CompareStrings r1 r2
    else (c1.toNat : Int) - (c2.toNat : Int)
  | [], [] => 0
  | [], c2 :: _ => 0 - (c2.toNat : Int)
  | c1 :: _, [] => (c1.toNat : Int) - 0

/-- First-character test of `ValidateArrayName` (Main.cpp lines 256–261):
underscore or an ASCII letter. -/
def isNameStartChar (c : Char) : Bool :=
  c = '_' || ('A' ≤ c && c ≤ 'Z') || ('a' ≤ c && c ≤ 'z')

/-- Per-character test of the `ValidateArrayName` loop (Main.cpp lines
263–274): underscore, ASCII digit, or ASCII letter. -/
def isNameChar (c : Char) : Bool :=
  c = '_' || ('0' ≤ c && c ≤ '9') || ('A' ≤ c && c ≤ 'Z') || ('a' ≤ c && c ≤ 'z')

/-- Model of `ValidateArrayName` (Main.cpp lines 252–290): `validName` stays `true`
iff the first character passes `isNameStartChar` (for the empty string the
indexed `arrayName[0]` is the terminating `'\0'`, which fails the test) and
every character up to the NUL passes `isNameChar`. -/
def ValidateArrayName (name : List Char) : Bool :=
  (match name.head? with
   | none => false
   | some c => isNameStartChar c) && name.all isNameChar

/-- Model of the `std::getline` loop of `ProcessString` (Main.cpp lines 158–162): split
the input bytes at each LF (10), the LF consumed and not stored; the final
getline succeeds on a last line without a terminator, and fails at once at
end of input (so a trailing LF does not produce a trailing empty line). -/
def getLines : List Nat → List (List Nat)
  | [] => []
  | b :: bs =>
    if b = 10 then [] :: getLines bs
    else
      match getLines bs with
      | [] => [[b]]
      | l :: ls => (b :: l) :: ls

/-- The payload `ProcessString` writes between `R"(` and `)"`: each line
appended with nothing in between. -/
def stringPayload (bytes : List Nat) : List Nat :=
  (getLines bytes).flatten

/-- Byte values of a string's characters (writing ASCII text to a file). -/
def strBytes (s : String) : List Nat :=
  s.data.map Char.toNat

/-- The complete text `ProcessString` writes to the output file, as bytes. -/
def ProcessStringOutputBytes (name : String) (bytes : List Nat) : List Nat :=
  strBytes "#pragma once\n\nstatic const char " ++ strBytes name ++
    strBytes "[] = R\"(" ++ stringPayload bytes ++ strBytes ")\";"

/-- A single-quote character, for building diagnostic strings. -/
def squote : String := String.mk [Char.ofNat 39]

/-- The file system: file names mapped to byte contents.  A name absent from
the list is a file that does not exist (so the input cannot be opened). -/
abbrev FS := List (String × List Nat)

/-- Content of a file, `none` when it does not exist. -/
def FS.lookup : FS → String → Option (List Nat)
  | [], _ => none
  | (n, d) :: rest, s => if n = s then some d else FS.lookup rest s

/-- Create or overwrite a file. -/
def FS.set : FS → String → List Nat → FS
  | [], s, d => [(s, d)]
  | (n, d0) :: rest, s, d =>
    if n = s then (s, d) :: rest else (n, d0) :: FS.set rest s d

/-- Diagnostic `ProcessHex`/`ProcessString` print when input and output file
names are equal (Main.cpp lines 132, 180). -/
def sameNameErrText : String :=
  "Error: Input file and output file can" ++ squote ++ "t have the same name\n"

/-- Diagnostic printed when the input file cannot be opened (lines 139, 187). -/
def inputOpenErrText : String :=
  "Error: Couldn" ++ squote ++ "t open input file\n"

/-- The multi-line diagnostic `ValidateArrayName` prints on an invalid name
(Main.cpp lines 278–284). -/
def invalidNameErrText : String :=
  "Error: Invalid array name\n" ++
  "    Only the following ASCII characters are allowed:\n" ++
  "        " ++ squote ++ "_" ++ squote ++ "\n" ++
  "        " ++ squote ++ "0" ++ squote ++ " to " ++ squote ++ "9" ++ squote ++ "\n" ++
  "        " ++ squote ++ "A" ++ squote ++ " to " ++ squote ++ "Z" ++ squote ++ "\n" ++
  "        " ++ squote ++ "a" ++ squote ++ " to " ++ squote ++ "z" ++ squote ++ "\n" ++
  "    The first character can" ++ squote ++ "t be " ++ squote ++ "0" ++ squote ++
    " to " ++ squote ++ "9" ++ squote ++ ".\n"

/-- Model of `ProcessHex` (Main.cpp lines 172–250) as a function of the three string
arguments and the file system.  Returns the exit code, the resulting file
system, and the text printed to the error stream.  `CompareStrings == 0` is
the same-name test; the output `std::ofstream` constructor truncates the
output file before `ValidateArrayName` runs. -/
def ProcessHex (inp out name : String) (fs : FS) : Nat × FS × String :=
  if CompareStrings inp.data out.data = 0 then (1, fs, sameNameErrText)
  else
    match FS.lookup fs inp with
    | none => (1, fs, inputOpenErrText)
    | some bytes =>
      let fs1 := FS.set fs out []
      if ValidateArrayName name.data then
        (0, FS.set fs1 out ((ProcessHexOutputChars name bytes).map Char.toNat), "")
      else (1, fs1, invalidNameErrText)

/-- Model of `ProcessString` (Main.cpp lines 124–170), same shape as `ProcessHex`. -/
def ProcessString (inp out name : String) (fs : FS) : Nat × FS × String :=
  if CompareStrings inp.data out.data = 0 then (1, fs, sameNameErrText)
  else
    match FS.lookup fs inp with
    | none => (1, fs, inputOpenErrText)
    | some bytes =>
      let fs1 := FS.set fs out []
      if ValidateArrayName name.data then
        (0, FS.set fs1 out (ProcessStringOutputBytes name bytes), "")
      else (1, fs1, invalidNameErrText)

/-- Help text printed for `/?` and `/help` (Main.cpp lines 43–54).
`PROJECT_NAME` is supplied by the build system, so the text is parametric in
it. -/
def helpText (projectName : String) : String :=
  "Usage:\n    ./" ++ projectName ++
    " [option] <input_file> <output_file> <array_name>\n" ++
  "\n" ++
  "Description:\n" ++
  "    This program copies data from the input file into the output file.\n" ++
  "    If the output file does not exist, it is created; otherwise it is overwritten.\n" ++
  "    The output file is formatted as a C++ header file.\n" ++
  "    By default the data is stored into a static const char array as hex values.\n" ++
  "\n" ++
  "Options:\n" ++
  "    /s or /string           Store the data as a static const char* string instead.\n" ++
  "    /? or /help             Displays this help message.\n"

/-- Outcome of the argument dispatch in `main` (Main.cpp lines 22–106):
print help and exit 0, print an argument error and exit 1, or delegate to
one of the encoders with the three string arguments. -/
inductive MainResult where
  | help : String → MainResult
  | argError : String → MainResult
  | runString : String → String → String → MainResult
  | runHex : String → String → String → MainResult
deriving DecidableEq

/-- The dispatch logic of `main` on `argv[1..]` (program name excluded).
`argc < 2` is the empty list; `argc` equals `args.length + 1`; the
`CompareStrings(...) == 0` tests are string equality on NUL-free argv
strings (`CompareStrings_eq_zero_iff` below); `argv[1][0] == '/'` reads the
first character, which for the empty string is the terminating `'\0'`. -/
def mainDispatch (projectName : String) (args : List String) : MainResult :=
  match args with
  | [] => .argError "Not enough arguments"
  | a1 :: rest =>
    if a1 = "/?" ∨ a1 = "/help" then
      if rest.length > 0 then .argError "Too many arguments"
      else .help (helpText projectName)
    else if a1 = "/s" ∨ a1 = "/string" then
      match rest with
      | [i, o, n] => .runString i o n
      | _ =>
        if rest.length + 2 < 5 then .argError "Not enough arguments"
        else .argError "Too many arguments"
    else if a1.data.head? = some '/' then .argError "Unrecognized option"
    else
      match rest with
      | [o, n] => .runHex a1 o n
      | _ =>
        if rest.length + 2 < 4 then .argError "Not enough arguments"
        else .argError "Too many arguments"

/-- Result of one program invocation: exit code, resulting file system, and
the texts printed to standard output and the error stream. -/
structure RunResult where
  exitCode : Nat
  fs : FS
  stdout : String
  stderr : String
deriving DecidableEq

/-- The whole program: dispatch, then run the selected action.  Argument
errors print the message followed by the `Try /? or /help` hint to the
error stream (Main.cpp lines 26–27 etc.). -/
def mainRun (projectName : String) (args : List String) (fs : FS) : RunResult :=
  match mainDispatch projectName args with
  | .help t => ⟨0, fs, t, ""⟩
  | .argError m => ⟨1, fs, "", "ERROR: " ++ m ++ "\n    Try /? or /help\n"⟩
  | .runString i o n =>
    let r := ProcessString i o n fs
    ⟨r.1, r.2.1, "", r.2.2⟩
  | .runHex i o n =>
    let r := ProcessHex i o n fs
    ⟨r.1, r.2.1, "", r.2.2⟩

/-- Following the spec's words ("the concatenation of every line of the
input file with its line-terminator sequence stripped"): the lines of a byte
sequence, obtained by splitting at each LF terminator, the terminator
dropped; a last unterminated chunk is a line of its own, and an input ending
in LF has no extra empty last line. -/
def specLinesSplit : List Nat → List (List Nat)
  | [] => []
  | b :: bs =>
    if b = 10 then [] :: specLinesSplit bs
    else
      match specLinesSplit bs with
      | [] => [[b]]
      | l :: ls => (b :: l) :: ls

/-- Elements at their positions, the spec's view of the emitted hex body:
element `i` is preceded by a comma unless `i = 0`, preceded by a newline and
three spaces whenever `i % 8 = 0`, and is a space followed by the `0xNN`
literal. -/
def specHexElement (p : Nat × Nat) : List Char :=
  (if p.1 = 0 then [] else [',']) ++
  (if p.1 % 8 = 0 then ['\n', ' ', ' ', ' '] else []) ++
  ([' ', '0', 'x'] ++ hexByteChars p.2)

/-- The sixteen lowercase hexadecimal digit characters. -/
def lowercaseHexChars : List Char := "0123456789abcdef".data

/-- Following the spec's words: a match of the identifier regular
expression `[A-Za-z_][A-Za-z0-9_]*` — a first character that is an ASCII
letter or underscore, every following character an ASCII letter, digit or
underscore; the empty string does not match. -/
def matchesIdentRegex : List Char → Bool
  | [] => false
  | c :: rest =>
    (c.isAlpha || c == '_') && rest.all (fun d => d.isAlphanum || d == '_')

-- ### Supporting lemmas

lemma CompareStrings_self : ∀ l : List Char, CompareStrings l l = 0
  | [] => rfl
  | c :: r => by simp [CompareStrings, CompareStrings_self r]

lemma charToNat_inj {a b : Char} (h : a.toNat = b.toNat) : a = b :=
  Char.ext (UInt32.ext h)

lemma CompareStrings_eq_zero_iff :
    ∀ l1 l2 : List Char, (∀ c ∈ l1, c.toNat ≠ 0) → (∀ c ∈ l2, c.toNat ≠ 0) →
      (CompareStrings l1 l2 = 0 ↔ l1 = l2)
  | [], [] => by simp [CompareStrings]
  | [], c2 :: r2 => by
    intro _ h2
    have hc2 : c2.toNat ≠ 0 := h2 c2 (by simp)
    simp only [CompareStrings]
    constructor
    · intro h; omega
    · intro h; exact absurd h (by simp)
  | c1 :: r1, [] => by
    intro h1 _
    have hc1 : c1.toNat ≠ 0 := h1 c1 (by simp)
    simp only [CompareStrings]
    constructor
    · intro h; omega
    · intro h; exact absurd h (by simp)
  | c1 :: r1, c2 :: r2 => by
    intro h1 h2
    by_cases hc : c1 = c2
    · subst hc
      rw [show CompareStrings (c1 :: r1) (c1 :: r2) = CompareStrings r1 r2 by
        simp [CompareStrings]]
      rw [CompareStrings_eq_zero_iff r1 r2
        (fun c hc => h1 c (by simp [hc])) (fun c hc => h2 c (by simp [hc]))]
      simp
    · have hne : c1.toNat ≠ c2.toNat := fun h => hc (charToNat_inj h)
      rw [show CompareStrings (c1 :: r1) (c2 :: r2)
          = (c1.toNat : Int) - (c2.toNat : Int) by simp [CompareStrings, hc]]
      constructor
      · intro h; omega
      · intro h; exact absurd h (by simp [hc])

lemma FS.lookup_set_self : ∀ (fs : FS) (s : String) (d : List Nat),
    FS.lookup (FS.set fs s d) s = some d
  | [], s, d => by simp [FS.set, FS.lookup]
  | (n, d0) :: rest, s, d => by
    by_cases h : n = s
    · simp [FS.set, FS.lookup, h]
    · simp [FS.set, FS.lookup, h, FS.lookup_set_self rest s d]

lemma getLines_flatten : ∀ bs : List Nat,
    (getLines bs).flatten = bs.filter (fun b => b != 10)
  | [] => rfl
  | b :: bs => by
    by_cases hb : b = 10
    · subst hb
      simp [getLines, List.filter_cons, getLines_flatten bs]
    · have ih := getLines_flatten bs
      cases hg : getLines bs with
      | nil =>
        rw [hg] at ih
        simp [getLines, hb, hg, List.filter_cons, ← ih]
      | cons l ls =>
        rw [hg] at ih
        simp only [getLines, hb, if_neg hb, hg, List.flatten_cons,
          List.filter_cons]
        simp only [show (b != 10) = true by simp [hb], if_true]
        rw [← ih]
        simp

lemma specLinesSplit_flatten : ∀ bs : List Nat,
    (specLinesSplit bs).flatten = bs.filter (fun b => b != 10)
  | [] => rfl
  | b :: bs => by
    by_cases hb : b = 10
    · subst hb
      simp [specLinesSplit, List.filter_cons, specLinesSplit_flatten bs]
    · have ih := specLinesSplit_flatten bs
      cases hg : specLinesSplit bs with
      | nil =>
        rw [hg] at ih
        simp [specLinesSplit, hb, hg, List.filter_cons, ← ih]
      | cons l ls =>
        rw [hg] at ih
        simp only [specLinesSplit, hb, if_neg hb, hg, List.flatten_cons,
          List.filter_cons]
        simp only [show (b != 10) = true by simp [hb], if_true]
        rw [← ih]
        simp

lemma isNameStartChar_eq (c : Char) :
    isNameStartChar c = (c.isAlpha || c == '_') := by
  rw [Bool.eq_iff_iff]
  simp [isNameStartChar, Char.isAlpha, Char.isUpper, Char.isLower]
  tauto

lemma isNameChar_eq (c : Char) :
    isNameChar c = (c.isAlphanum || c == '_') := by
  rw [Bool.eq_iff_iff]
  simp [isNameChar, Char.isAlphanum, Char.isAlpha, Char.isUpper,
    Char.isLower, Char.isDigit]
  tauto

lemma all_isNameChar_eq : ∀ l : List Char,
    l.all isNameChar = l.all (fun d => d.isAlphanum || d == '_')
  | [] => rfl
  | d :: ds => by
    rw [List.all_cons, List.all_cons, all_isNameChar_eq ds, isNameChar_eq]

lemma isNameChar_of_start {c : Char} (h : isNameStartChar c = true) :
    isNameChar c = true := by
  rw [Bool.eq_iff_iff]
  simp only [isNameStartChar] at h
  simp only [isNameChar]
  simp only [Bool.or_eq_true, Bool.and_eq_true, decide_eq_true_eq] at h ⊢
  tauto

lemma decode_comma (l : List Char) :
    decodeHexLits (',' :: l) = decodeHexLits l := rfl

lemma decode_nl (l : List Char) :
    decodeHexLits ('\n' :: l) = decodeHexLits l := rfl

lemma decode_sp (l : List Char) :
    decodeHexLits (' ' :: l) = decodeHexLits l := rfl

lemma decode_lit (d1 d2 : Char) (l : List Char) :
    decodeHexLits ('0' :: 'x' :: d1 :: d2 :: l)
      = (hexVal d1 * 16 + hexVal d2) :: decodeHexLits l := rfl

lemma hexVal_hexDigit {n : Nat} (h : n < 16) : hexVal (hexDigit n) = n := by
  interval_cases n <;> decide

lemma hexDigit_mem_lowercase {n : Nat} (h : n < 16) :
    hexDigit n ∈ lowercaseHexChars := by
  interval_cases n <;> decide

lemma decode_hexBodyAux : ∀ (bytes : List Nat) (count : Nat)
    (isFirst : Bool), (∀ b ∈ bytes, b < 256) →
    decodeHexLits (hexBodyAux bytes count isFirst) = bytes
  | [], _, _, _ => rfl
  | b :: rest, count, isFirst, h => by
    have hb : b < 256 := h b (by simp)
    have ih := decode_hexBodyAux rest (count + 1) false
      (fun x hx => h x (by simp [hx]))
    have hv : hexVal (hexDigit (b / 16)) * 16 + hexVal (hexDigit (b % 16))
        = b := by
      rw [hexVal_hexDigit (by omega), hexVal_hexDigit (by omega)]
      omega
    rw [hexBodyAux]
    cases isFirst <;> cases h8 : (count % 8 == 0) <;>
      simp [h8, hexByteChars, decode_comma, decode_nl, decode_sp,
        decode_lit, hv, ih]

lemma hexBodyAux_enumFrom : ∀ (bytes : List Nat) (n : Nat),
    hexBodyAux bytes n (n == 0)
      = ((List.enumFrom n bytes).map specHexElement).flatten
  | [], n => by simp [hexBodyAux, List.enumFrom]
  | b :: rest, n => by
    have ih := hexBodyAux_enumFrom rest (n + 1)
    rw [show ((n + 1) == 0) = false by simp] at ih
    rw [hexBodyAux, List.enumFrom_cons]
    simp only [List.map_cons, List.flatten_cons, specHexElement, ih]
    by_cases h0 : n = 0 <;> by_cases h8 : n % 8 = 0 <;>
      simp [h0, h8, List.append_assoc]

-- ### Claims

/-- C10: the string encoder keeps an unterminated final line; for every
input byte sequence the emitted payload is the input with every LF byte
(10) removed. -/
theorem stringPayload_removes_lf (bytes : List Nat) :
    stringPayload bytes = bytes.filter (fun b => b != 10) :=
  getLines_flatten bytes

/-- C7: the payload between the raw-string delimiters is the concatenation
of the input's lines, each line's terminator stripped and nothing
reinserted between lines; in particular the two-line input `abc\ndef\n`
yields payload `abcdef`. -/
theorem stringPayload_concat_of_lines (bytes : List Nat) :
    stringPayload bytes = (specLinesSplit bytes).flatten ∧
    stringPayload [97, 98, 99, 10, 100, 101, 102, 10]
      = [97, 98, 99, 100, 101, 102] := by
  constructor
  · rw [stringPayload, getLines_flatten, specLinesSplit_flatten]
  · decide

/-- C6: with identical input and output paths, both encoders fail with exit
code 1 and the same-name diagnostic, and the file system — in particular
the output file — is untouched (neither file has been opened). -/
theorem same_name_rejected (inp out name : String) (fs : FS)
    (h : inp = out) :
    ProcessHex inp out name fs = (1, fs, sameNameErrText) ∧
    ProcessString inp out name fs = (1, fs, sameNameErrText) := by
  subst h
  have h0 : CompareStrings inp.data inp.data = 0 := CompareStrings_self _
  exact ⟨by simp [ProcessHex, h0], by simp [ProcessString, h0]⟩

/-- C6 witness. -/
theorem same_name_rejected_witness :
    ProcessHex "a.txt" "a.txt" "n" [("a.txt", [1, 2])]
        = (1, [("a.txt", [1, 2])], sameNameErrText) ∧
    ProcessString "a.txt" "a.txt" "n" [("a.txt", [1, 2])]
        = (1, [("a.txt", [1, 2])], sameNameErrText) :=
  same_name_rejected "a.txt" "a.txt" "n" [("a.txt", [1, 2])] rfl

/-- C8: in both modes the output file is opened — and truncated — before the
array name is validated: with distinct NUL-free paths, a readable input and
an invalid array name, the run exits 1, the resulting file system is the
original with the output file truncated to empty (no new content written),
and the output file's pre-existing content is destroyed. -/
theorem truncate_before_validate (inp out name : String) (fs : FS)
    (bytes : List Nat)
    (hne : inp ≠ out)
    (hn1 : ∀ c ∈ inp.data, c.toNat ≠ 0) (hn2 : ∀ c ∈ out.data, c.toNat ≠ 0)
    (hin : FS.lookup fs inp = some bytes)
    (hbad : ValidateArrayName name.data = false) :
    ProcessHex inp out name fs = (1, FS.set fs out [], invalidNameErrText) ∧
    ProcessString inp out name fs
        = (1, FS.set fs out [], invalidNameErrText) ∧
    FS.lookup (FS.set fs out []) out = some [] := by
  have hcmp : CompareStrings inp.data out.data ≠ 0 := fun h =>
    hne (String.ext
      ((CompareStrings_eq_zero_iff inp.data out.data hn1 hn2).mp h))
  refine ⟨?_, ?_, FS.lookup_set_self fs out []⟩
  · simp [ProcessHex, hcmp, hin, hbad]
  · simp [ProcessString, hcmp, hin, hbad]

/-- C8 witness: output file `b.h` holds `[7]` beforehand and is truncated. -/
theorem truncate_before_validate_witness :
    ProcessHex "a.txt" "b.h" "1bad" [("a.txt", [1]), ("b.h", [7])]
        = (1, [("a.txt", [1]), ("b.h", [])], invalidNameErrText) ∧
    ProcessString "a.txt" "b.h" "1bad" [("a.txt", [1]), ("b.h", [7])]
        = (1, [("a.txt", [1]), ("b.h", [])], invalidNameErrText) ∧
    FS.lookup (FS.set [("a.txt", [1]), ("b.h", [7])] "b.h" []) "b.h"
        = some [] := by
  have h := truncate_before_validate "a.txt" "b.h" "1bad"
    [("a.txt", [1]), ("b.h", [7])] [1]
    (by decide) (by decide) (by decide) (by rfl) (by rfl)
  simpa [FS.set] using h

/-- C9: on a zero-byte input the hex encoder emits only the include guard,
the blank line, the declaration header and the closing brace: the array
body is empty and exactly one line break precedes the closing brace. -/
theorem hex_empty_input_output (name : String) :
    hexBodyChars [] = [] ∧
    ProcessHexOutputChars name []
      = "#pragma once\n\nstatic const unsigned char ".data ++ name.data ++
        "[] = \x7b\n\x7d;".data := by
  refine ⟨rfl, ?_⟩
  show "#pragma once\n\nstatic const unsigned char ".data ++ name.data ++
      "[] = \x7b".data ++ hexBodyChars [] ++ "\n\x7d;".data = _
  rw [show hexBodyChars [] = [] from rfl]
  simp only [List.append_nil, List.append_assoc]
  congr 2

/-- C3: the validator accepts exactly the strings matching
`[A-Za-z_][A-Za-z0-9_]*` and rejects every other string; the empty string
is rejected because the first-character check reads the terminating NUL. -/
theorem ValidateArrayName_characterization (name : List Char) :
    ValidateArrayName name = matchesIdentRegex name ∧
    ValidateArrayName [] = false := by
  refine ⟨?_, rfl⟩
  cases name with
  | nil => rfl
  | cons c rest =>
    have hv : ValidateArrayName (c :: rest)
        = (isNameStartChar c && (c :: rest).all isNameChar) := rfl
    rw [hv, List.all_cons]
    by_cases hs : isNameStartChar c = true
    · rw [hs, isNameChar_of_start hs, matchesIdentRegex]
      rw [← isNameStartChar_eq, hs]
      simp only [Bool.true_and]
      exact all_isNameChar_eq rest
    · rw [Bool.not_eq_true] at hs
      rw [hs, matchesIdentRegex, ← isNameStartChar_eq, hs]
      simp

lemma not_slash_strings {a1 : String} (h : a1.data.head? ≠ some '/') :
    a1 ≠ "/?" ∧ a1 ≠ "/help" ∧ a1 ≠ "/s" ∧ a1 ≠ "/string" := by
  refine ⟨?_, ?_, ?_, ?_⟩ <;> rintro rfl <;> exact h rfl

/-- C4: `/?` or `/help` as the sole argument prints the help text to
standard output and exits 0, with the same text for both spellings; with
any additional argument the run exits 1 with the too-many-arguments
diagnostic on the error stream. -/
theorem help_dispatch (pn a1 : String) (rest : List String) (fs : FS)
    (h : a1 = "/?" ∨ a1 = "/help") :
    (rest = [] → mainRun pn (a1 :: rest) fs = ⟨0, fs, helpText pn, ""⟩) ∧
    (rest ≠ [] → mainRun pn (a1 :: rest) fs
        = ⟨1, fs, "", "ERROR: Too many arguments\n    Try /? or /help\n"⟩) ∧
    mainRun pn ["/?"] fs = mainRun pn ["/help"] fs := by
  refine ⟨?_, ?_, rfl⟩
  · rintro rfl
    rcases h with rfl | rfl <;> rfl
  · intro hr
    rcases h with rfl | rfl <;>
      · cases rest with
        | nil => exact absurd rfl hr
        | cons r rs => simp [mainRun, mainDispatch]

/-- C4 witness. -/
theorem help_dispatch_witness :
    (mainRun "conv" ["/?"] [] = ⟨0, [], helpText "conv", ""⟩) ∧
    (mainRun "conv" ["/help", "x"] []
        = ⟨1, [], "", "ERROR: Too many arguments\n    Try /? or /help\n"⟩) :=
  ⟨(help_dispatch "conv" "/?" [] [] (Or.inl rfl)).1 rfl,
   (help_dispatch "conv" "/help" ["x"] [] (Or.inr rfl)).2.1 (by simp)⟩

/-- C5: encoders run only at the exact argument counts: `/s`/`/string`
need exactly 3 further arguments and hex mode exactly 3 arguments in all;
too few exits 1 with the not-enough diagnostic, too many with the too-many
diagnostic, and an unknown option starting with `/` exits 1 with the
unrecognized-option diagnostic — all on the error stream with the
`Try /? or /help` hint. -/
theorem argument_count_dispatch (pn a1 i o n : String) (rest : List String)
    (fs : FS) :
    (mainRun pn [] fs
      = ⟨1, fs, "", "ERROR: Not enough arguments\n    Try /? or /help\n"⟩) ∧
    ((a1 = "/s" ∨ a1 = "/string") → rest.length < 3 →
      mainRun pn (a1 :: rest) fs
        = ⟨1, fs, "", "ERROR: Not enough arguments\n    Try /? or /help\n"⟩) ∧
    ((a1 = "/s" ∨ a1 = "/string") → rest.length > 3 →
      mainRun pn (a1 :: rest) fs
        = ⟨1, fs, "", "ERROR: Too many arguments\n    Try /? or /help\n"⟩) ∧
    ((a1 = "/s" ∨ a1 = "/string") →
      mainDispatch pn [a1, i, o, n] = .runString i o n) ∧
    (a1.data.head? = some '/' → a1 ≠ "/?" → a1 ≠ "/help" → a1 ≠ "/s" →
      a1 ≠ "/string" → mainRun pn (a1 :: rest) fs
        = ⟨1, fs, "", "ERROR: Unrecognized option\n    Try /? or /help\n"⟩) ∧
    (a1.data.head? ≠ some '/' → rest.length < 2 →
      mainRun pn (a1 :: rest) fs
        = ⟨1, fs, "", "ERROR: Not enough arguments\n    Try /? or /help\n"⟩) ∧
    (a1.data.head? ≠ some '/' → rest.length > 2 →
      mainRun pn (a1 :: rest) fs
        = ⟨1, fs, "", "ERROR: Too many arguments\n    Try /? or /help\n"⟩) ∧
    (a1.data.head? ≠ some '/' → mainDispatch pn [a1, o, n] = .runHex a1 o n) := by
  refine ⟨rfl, ?_, ?_, ?_, ?_, ?_, ?_, ?_⟩
  · intro h1 h2
    rcases rest with _ | ⟨a, _ | ⟨b, _ | ⟨c, t⟩⟩⟩
    · rcases h1 with rfl | rfl <;> simp [mainRun, mainDispatch]
    · rcases h1 with rfl | rfl <;> simp [mainRun, mainDispatch]
    · rcases h1 with rfl | rfl <;> simp [mainRun, mainDispatch]
    · exfalso
      simp only [List.length_cons] at h2
      omega
  · intro h1 h2
    rcases rest with _ | ⟨a, _ | ⟨b, _ | ⟨c, _ | ⟨d, t⟩⟩⟩⟩
    all_goals
      first
        | (exfalso
           simp only [List.length_cons, List.length_nil] at h2
           omega)
        | rcases h1 with rfl | rfl <;>
            (simp [mainRun, mainDispatch]
             rw [if_neg (show ¬ (t.length + 1 + 1 + 1 + 1 + 2 < 5) by omega)]
             rfl)
  · intro h1
    rcases h1 with rfl | rfl <;> rfl
  · intro hh h1 h2 h3 h4
    simp [mainRun, mainDispatch, h1, h2, h3, h4, hh]
  · intro hh h2
    obtain ⟨n1, n2, n3, n4⟩ := not_slash_strings hh
    rcases rest with _ | ⟨a, _ | ⟨b, t⟩⟩
    · simp [mainRun, mainDispatch, n1, n2, n3, n4, hh]
    · simp [mainRun, mainDispatch, n1, n2, n3, n4, hh]
    · exfalso
      simp only [List.length_cons] at h2
      omega
  · intro hh h2
    obtain ⟨n1, n2, n3, n4⟩ := not_slash_strings hh
    rcases rest with _ | ⟨a, _ | ⟨b, _ | ⟨c, t⟩⟩⟩
    · exfalso; simp at h2
    · exfalso
      simp only [List.length_cons, List.length_nil] at h2
      omega
    · exfalso
      simp only [List.length_cons, List.length_nil] at h2
      omega
    · simp [mainRun, mainDispatch, n1, n2, n3, n4, hh]
      rw [if_neg (show ¬ (t.length + 1 + 1 + 1 + 2 < 4) by omega)]
      rfl
  · intro hh
    obtain ⟨n1, n2, n3, n4⟩ := not_slash_strings hh
    simp [mainDispatch, n1, n2, n3, n4, hh]

/-- C5 witness. -/
theorem argument_count_dispatch_witness :
    (mainRun "conv" [] []
      = ⟨1, [], "", "ERROR: Not enough arguments\n    Try /? or /help\n"⟩) ∧
    (mainRun "conv" ["/s", "a"] []
      = ⟨1, [], "", "ERROR: Not enough arguments\n    Try /? or /help\n"⟩) ∧
    (mainRun "conv" ["/s", "a", "b", "c", "d"] []
      = ⟨1, [], "", "ERROR: Too many arguments\n    Try /? or /help\n"⟩) ∧
    (mainDispatch "conv" ["/string", "a", "b", "c"]
      = .runString "a" "b" "c") ∧
    (mainRun "conv" ["/x"] []
      = ⟨1, [], "", "ERROR: Unrecognized option\n    Try /? or /help\n"⟩) ∧
    (mainRun "conv" ["a"] []
      = ⟨1, [], "", "ERROR: Not enough arguments\n    Try /? or /help\n"⟩) ∧
    (mainRun "conv" ["a", "b", "c", "d"] []
      = ⟨1, [], "", "ERROR: Too many arguments\n    Try /? or /help\n"⟩) ∧
    (mainDispatch "conv" ["a", "b", "c"] = .runHex "a" "b" "c") := by
  have h1 := argument_count_dispatch "conv" "/s" "i" "o" "n" ["a"] []
  have h2 := argument_count_dispatch "conv" "/s" "i" "o" "n"
    ["a", "b", "c", "d"] []
  have h3 := argument_count_dispatch "conv" "/string" "a" "b" "c" [] []
  have h4 := argument_count_dispatch "conv" "/x" "i" "o" "n" [] []
  have h5 := argument_count_dispatch "conv" "a" "i" "o" "n" [] []
  have h6 := argument_count_dispatch "conv" "a" "i" "o" "n"
    ["b", "c", "d"] []
  have h7 := argument_count_dispatch "conv" "a" "i" "b" "c" [] []
  exact ⟨h1.1,
    h1.2.1 (Or.inl rfl) (by decide),
    h2.2.2.1 (Or.inl rfl) (by decide),
    h3.2.2.2.1 (Or.inr rfl),
    h4.2.2.2.2.1 (by decide) (by decide) (by decide) (by decide) (by decide),
    h5.2.2.2.2.2.1 (by decide) (by decide),
    h6.2.2.2.2.2.2.1 (by decide) (by decide),
    h7.2.2.2.2.2.2.2 (by decide)⟩

/-- C1: the hex encoding round-trips: decoding the emitted array body —
skipping every character that is not part of a `0xNN` literal and parsing
each literal — reproduces the original byte sequence exactly and in order,
for every input byte sequence (in particular those of length 0, 1, 7, 8, 9
and 1000). -/
theorem hex_roundtrip (bytes : List Nat) (h : ∀ b ∈ bytes, b < 256) :
    decodeHexLits (hexBodyChars bytes) = bytes :=
  decode_hexBodyAux bytes 0 true h

/-- C1 witness: a length-9 input crossing the 8-per-line wrap. -/
theorem hex_roundtrip_witness :
    (∀ b ∈ [0, 255, 10, 1, 2, 3, 4, 5, 254], b < 256) ∧
    decodeHexLits (hexBodyChars [0, 255, 10, 1, 2, 3, 4, 5, 254])
      = [0, 255, 10, 1, 2, 3, 4, 5, 254] :=
  ⟨by decide, hex_roundtrip [0, 255, 10, 1, 2, 3, 4, 5, 254] (by decide)⟩

/-- C2: the emitted array body is, element by element: a comma before every
element except the one at position 0 (hence no trailing comma), a newline
plus three-space indent before every element whose position is a multiple
of 8, then a space and `0x` followed by exactly the two digits of the byte,
both lowercase hexadecimal digit characters. -/
theorem hex_element_format (bytes : List Nat) (_hne : bytes ≠ [])
    (h : ∀ b ∈ bytes, b < 256) :
    hexBodyChars bytes = (bytes.enum.map specHexElement).flatten ∧
    ∀ b ∈ bytes, hexDigit (b / 16) ∈ lowercaseHexChars ∧
      hexDigit (b % 16) ∈ lowercaseHexChars := by
  constructor
  · have he := hexBodyAux_enumFrom bytes 0
    rw [show ((0 : Nat) == 0) = true by rfl] at he
    exact he
  · intro b hb
    have hblt := h b hb
    exact ⟨hexDigit_mem_lowercase (by omega), hexDigit_mem_lowercase (by omega)⟩

/-- C2 witness: nine bytes, wrap after the eighth. -/
theorem hex_element_format_witness :
    ([16, 255, 0, 1, 2, 3, 4, 5, 171] ≠ ([] : List Nat)) ∧
    hexBodyChars [16, 255, 0, 1, 2, 3, 4, 5, 171]
      = (([16, 255, 0, 1, 2, 3, 4, 5, 171].enum.map specHexElement).flatten) ∧
    ∀ b ∈ [16, 255, 0, 1, 2, 3, 4, 5, 171],
      hexDigit (b / 16) ∈ lowercaseHexChars ∧
      hexDigit (b % 16) ∈ lowercaseHexChars := by
  have h := hex_element_format [16, 255, 0, 1, 2, 3, 4, 5, 171]
    (by decide) (by decide)
  exact ⟨by decide, h.1, h.2⟩

